import Mathlib

/-!
Shallow embedding of the Mood & Insight Analytics Engine
(MoodLog / Insight mongoose models and the /api/moods, /api/insights
express routes) together with proofs about its specified behaviour.

Time is modelled as `Nat` milliseconds since the Unix epoch; MongoDB
numbers are modelled as `ℚ`; BSON strings keep Lean `String` with the
byte-wise lexicographic order that MongoDB uses for sorting.
-/

/-- Stable insertion used by `insertSort`: `le a b = true` means `a` may
come (weakly) before `b`; an element being inserted originates earlier in
the input list, hence goes before elements it ties with. Models the order
MongoDB's sort produces for the comparators used in this file. -/
def insertOrd (le : α → α → Bool) (x : α) : List α → List α
  | [] => [x]
  | y :: ys => if le x y then x :: y :: ys else y :: insertOrd le x ys

/-- Stable sort by a boolean total preorder. -/
def insertSort (le : α → α → Bool) : List α → List α
  | [] => []
  | x :: xs => insertOrd le x (insertSort le xs)

/-- JavaScript `a || d` applied to the result of a numeric property
lookup: `undefined` (`none`) and `0` are falsy and yield the default. -/
def jsOrQ (x : Option ℚ) (d : ℚ) : ℚ :=
  match x with
  | none => d
  | some v => if v = 0 then d else v

/-- JavaScript object property access on an object literal, as an
association-list lookup (`undefined` when the key is absent). -/
def propLookup : List (String × ℚ) → String → Option ℚ
  | [], _ => none
  | (k, v) :: rest, m => if m = k then some v else propLookup rest m

/-- Arithmetic mean of a list of rationals (`0` on the empty list,
matching the `x / 0 = 0` convention of `ℚ`; callers only use it on
nonempty lists or guard the empty case explicitly). -/
def meanQ (l : List ℚ) : ℚ := l.sum / l.length

/-- JavaScript `Math.round(x * 100) / 100`: rounds half toward +∞. -/
def round2 (x : ℚ) : ℚ := (⌊x * 100 + 1 / 2⌋ : ℚ) / 100

/-- MongoDB `$avg` over the values a field takes on the documents of a
group: missing (`none`) values are ignored; with no numeric value at all
the result is `null` (`none`). -/
def mongoAvg (l : List (Option ℚ)) : Option ℚ :=
  let nums := l.filterMap id
  if nums.isEmpty then none else some (meanQ nums)

/-- BSON string comparison (byte-wise lexicographic, the order MongoDB
uses to sort string fields such as `priority`). -/
def strLtB (a b : String) : Bool := compare a b == .lt

/-! ## MoodLog model (src/server/models/MoodLog.js) -/

/-- One stored `moodlogs` document. `createdAt` is the mongoose
timestamp in epoch milliseconds. Fields irrelevant to the verified
behaviour (location, deviceInfo, metadata) are omitted. -/
structure MoodEvent where
  id : String
  userId : String
  mood : String
  intensity : Nat
  context : String
  notes : String
  triggers : List String
  transactionId : Option String
  createdAt : Nat
  deriving DecidableEq, Repr

/-- The closed mood enumeration of `moodLogSchema.mood`. -/
def moodEnum : List String :=
  ["happy", "neutral", "stressed", "anxious", "excited",
   "sad", "angry", "calm", "worried", "content"]

/-- The `moodScores` lookup table inside the `moodScore` virtual. -/
def moodScores : List (String × ℚ) :=
  [("happy", 9), ("excited", 8), ("content", 7), ("calm", 6),
   ("neutral", 5), ("worried", 4), ("sad", 3), ("anxious", 2),
   ("stressed", 2), ("angry", 1)]

/-- The `moodScore` virtual on a mood string and intensity:
`(moodScores[mood] || 5) * (intensity / 10)`. -/
def moodScoreOf (mood : String) (intensity : Nat) : ℚ :=
  jsOrQ (propLookup moodScores mood) 5 * ((intensity : ℚ) / 10)

/-- The `moodScore` virtual read on a document. It is computed from the
document's current `mood` and `intensity`; no score field is stored. -/
def MoodEvent.moodScore (e : MoodEvent) : ℚ :=
  moodScoreOf e.mood e.intensity

/-! ## PUT /api/moods/:id (src routes, part_009 lines 349-409) -/

/-- The request body of `PUT /api/moods/:id`. The route passes
`req.body` to `$set` unchanged, so the payload is an arbitrary JSON
object and may carry fields outside the validated editable set; the
`userId` component models such an extra field. `none` = absent. -/
structure MoodUpdatePayload where
  mood : Option String
  intensity : Option Nat
  context : Option String
  notes : Option String
  triggers : Option (List String)
  userId : Option String
  deriving DecidableEq, Repr

/-- The closed context enumeration of the route validators. -/
def contextEnum : List String :=
  ["before_transaction", "after_transaction", "general",
   "budget_review", "goal_check"]

/-- The express-validator chain of `PUT /api/moods/:id`: each listed
field is checked only when present; fields not listed (such as
`userId`) are not inspected at all. -/
def validateMoodUpdate (p : MoodUpdatePayload) : Bool :=
  (match p.mood with | none => true | some m => decide (m ∈ moodEnum)) &&
  (match p.intensity with | none => true | some i => decide (1 ≤ i ∧ i ≤ 10)) &&
  (match p.context with | none => true | some c => decide (c ∈ contextEnum)) &&
  (match p.notes with | none => true | some n => decide (n.length ≤ 500)) &&
  true

/-- The update `findOneAndUpdate(..., $set: updateData, new: true)`:
every field present in the payload overwrites the stored field. -/
def applyMoodUpdate (e : MoodEvent) (p : MoodUpdatePayload) : MoodEvent :=
  { e with
    mood := p.mood.getD e.mood
    intensity := p.intensity.getD e.intensity
    context := p.context.getD e.context
    notes := p.notes.getD e.notes
    triggers := p.triggers.getD e.triggers
    userId := p.userId.getD e.userId }

/-! ## GET /api/moods/summary (part_009 lines 239-347)

The `$group` stage computes `dominantMood` with a `$first` over an
aggregation expression whose `$reduce` is given `'$mood'` — a string
field — as its `input`. MongoDB requires the input of `$reduce` to be
an array and raises an error otherwise, which the route's `catch`
converts into a 500 response. The expression tree is modelled below
over a small BSON value type. -/

inductive MongoVal where
  | nullv
  | str (s : String)
  | num (q : ℚ)
  | arr (elems : List MongoVal)
  | obj (fields : List (String × MongoVal))
  deriving Repr

/-- BSON type name as reported in MongoDB error messages. -/
def mongoTypeName : MongoVal → String
  | .nullv => "null"
  | .str _ => "string"
  | .num _ => "double"
  | .arr _ => "array"
  | .obj _ => "object"

/-- MongoDB `$reduce`: folds over an array input; any other input type
is an error that aborts the whole aggregation. -/
def mongoReduce (input init : MongoVal) (f : MongoVal → MongoVal → MongoVal) :
    Except String MongoVal :=
  match input with
  | .arr l => .ok (l.foldl f init)
  | v => .error ("The argument to $reduce must be an array, but was of type: "
      ++ mongoTypeName v)

/-- Set a key on a BSON object's field list (replace in place or append). -/
def objSet : List (String × MongoVal) → String → MongoVal → List (String × MongoVal)
  | [], k, v => [(k, v)]
  | (k0, v0) :: rest, k, v =>
    if k = k0 then (k0, v) :: rest else (k0, v0) :: objSet rest k v

/-- MongoDB `$mergeObjects` of two values (non-objects contribute nothing). -/
def mergeObjectsV : MongoVal → MongoVal → MongoVal
  | .obj a, .obj b => .obj (b.foldl (fun acc kv => objSet acc kv.1 kv.2) a)
  | .obj a, _ => .obj a
  | a, _ => a

/-- The string content of a BSON value (`$$this` is used as an object
key in the route's expression, which requires a string). -/
def mongoValStr : MongoVal → String
  | .str s => s
  | _ => ""

/-- MongoDB `$objectToArray` of an object: the list of its k/v pairs. -/
def objToArray : MongoVal → List MongoVal
  | .obj fields => fields.map (fun kv => .obj [("k", .str kv.1), ("v", kv.2)])
  | _ => []

/-- Field access used by the `$map` body (`'$$mood.k'`). -/
def objGet : MongoVal → String → MongoVal
  | .obj fields, k => (fields.find? (fun kv => kv.1 == k)).elim .nullv Prod.snd
  | _, _ => .nullv

/-- MongoDB `$arrayElemAt [a, 0]`. -/
def arrElemAt : MongoVal → Nat → MongoVal
  | .arr l, n => (l.get? n).getD .nullv
  | _, _ => .nullv

/-- The per-document `dominantMood` expression of the summary `$group`:
`$arrayElemAt [$map over $objectToArray of ($reduce input: '$mood' ...), 0]`.
`'$mood'` is a string, so the `$reduce` errors on every document. -/
def dominantMoodExpr (e : MoodEvent) : Except String MongoVal := do
  let folded ← mongoReduce (.str e.mood) (.obj [])
    (fun value thisv => mergeObjectsV value (.obj [(mongoValStr thisv, .num 1)]))
  let keys := (objToArray folded).map (fun p => objGet p "k")
  .ok (arrElemAt (.arr keys) 0)

/-- The `summary[0]` document produced by the aggregation. -/
structure MoodSummaryOut where
  totalLogs : Nat
  avgMoodScore : Option ℚ
  dominantMood : MongoVal
  deriving Repr

/-- The `$group` stage with `_id: null`: no output document on empty
input; otherwise one document whose accumulators include the erroring
`dominantMood` expression (evaluated on the first document by `$first`)
and `$avg: '$moodScore'` — a field that is a mongoose virtual and hence
absent from every stored document, so `$avg` sees no numeric value. -/
def moodSummaryAgg : List MoodEvent → Except String (Option MoodSummaryOut)
  | [] => .ok none
  | e0 :: rest => do
    let dm ← dominantMoodExpr e0
    .ok (some ⟨rest.length + 1,
      mongoAvg ((e0 :: rest).map fun _ => (none : Option ℚ)), dm⟩)

/-- The route handler: window match, then the `$group`; an empty result
falls back to `{totalLogs: 0, avgMoodScore: 0, dominantMood: 'neutral'}`;
an aggregation error is caught and surfaced as a 500 (`.error`). -/
def moodSummaryEndpoint (store : List MoodEvent) (uid : String)
    (startDate : Nat) : Except String MoodSummaryOut :=
  let matched := store.filter (fun e => e.userId == uid && decide (startDate ≤ e.createdAt))
  match moodSummaryAgg matched with
  | .error msg => .error msg
  | .ok none => .ok ⟨0, some 0, .str "neutral"⟩
  | .ok (some rec) => .ok rec

/-! ## Calendar arithmetic for `$year` / `$week` (GET /api/moods/trends)

Civil-calendar conversions on day indices (days since 1970-01-01,
proleptic Gregorian, UTC), valid for CE dates. -/

/-- Days from 0000-03-01 to the given civil date (y ≥ 1 CE). -/
def daysFromCivil (y m d : Nat) : Nat :=
  let y' := y - (if m ≤ 2 then 1 else 0)
  let era := y' / 400
  let yoe := y' % 400
  let mp := if 2 < m then m - 3 else m + 9
  let doy := (153 * mp + 2) / 5 + d - 1
  let doe := yoe * 365 + yoe / 4 - yoe / 100 + doy
  era * 146097 + doe

/-- Days since the Unix epoch of a civil date. -/
def epochDays (y m d : Nat) : Nat := daysFromCivil y m d - 719468

/-- Civil date `(year, month, day)` of a day index. -/
def civilFromDays (z : Nat) : Nat × Nat × Nat :=
  let zz := z + 719468
  let era := zz / 146097
  let doe := zz % 146097
  let yoe := (doe - doe / 1460 + doe / 36524 - doe / 146096) / 365
  let y := yoe + era * 400
  let doy := doe - (365 * yoe + yoe / 4 - yoe / 100)
  let mp := (5 * doy + 2) / 153
  let d := doy - (153 * mp + 2) / 5 + 1
  let m := if mp < 10 then mp + 3 else mp - 9
  (if m ≤ 2 then y + 1 else y, m, d)

/-- Day of week with Sunday = 0 (1970-01-01 was a Thursday). -/
def dowSunday0 (z : Nat) : Nat := (z + 4) % 7

/-- Zero-based day of year of a day index. -/
def dayOfYear0 (z : Nat) : Nat :=
  (z + 719468) - daysFromCivil (civilFromDays z).1 1 1

/-- MongoDB `$year` (UTC). -/
def mongoYear (z : Nat) : Nat := (civilFromDays z).1

/-- MongoDB `$week` (UTC): weeks begin on Sunday, week 1 starts at the
first Sunday of the year, days before it are week 0 (strftime `%U`). -/
def mongoWeek (z : Nat) : Nat := (dayOfYear0 z + 7 - dowSunday0 z) / 7

/-- ISO 8601 day of week, Monday = 1 .. Sunday = 7. -/
def isoDayOfWeek (z : Nat) : Nat := (z + 3) % 7 + 1

/-- Number of ISO weeks in an ISO year. -/
def isoWeeksInYear (y : Nat) : Nat :=
  let p := fun (yy : Nat) => (yy + yy / 4 - yy / 100 + yy / 400) % 7
  52 + (if p y = 4 ∨ p (y - 1) = 3 then 1 else 0)

/-- Modelled from the spec: the ISO 8601 calendar week
`(isoYear, isoWeek)` of a day index, used to compare the `weeklyScores`
grouping of the code (which uses `$year`/`$week`) against the spec's
"groups by ISO calendar week". -/
def isoWeekOfDay (z : Nat) : Nat × Nat :=
  let y := (civilFromDays z).1
  let w := (dayOfYear0 z + 11 - isoDayOfWeek z) / 7
  if w = 0 then (y - 1, isoWeeksInYear (y - 1))
  else if isoWeeksInYear y < w then (y + 1, 1)
  else (y, w)

/-! ## GET /api/moods/trends — weekly scores (part_009 lines 197-218) -/

/-- One element of the `weeklyScores` aggregation result. -/
structure WeekRec where
  year : Nat
  week : Nat
  avgMoodScore : Option ℚ
  count : Nat
  deriving DecidableEq, Repr

/-- The `weeklyScores` aggregation of `GET /api/moods/trends`: matches
the trailing window (`Date.now() - days * 86400000`), groups by
`($year, $week)` of `createdAt`, averages the `'$moodScore'` field —
a mongoose virtual, absent from every stored document, so `$avg`
returns `null` — and sorts by `(year, week)` ascending. -/
def weeklyScores (store : List MoodEvent) (uid : String) (now days : Nat) :
    List WeekRec :=
  let matched := store.filter
    (fun e => e.userId == uid && decide (now - days * 86400000 ≤ e.createdAt))
  let key := fun (e : MoodEvent) =>
    (mongoYear (e.createdAt / 86400000), mongoWeek (e.createdAt / 86400000))
  let keys := (matched.map key).dedup
  let recs := keys.map (fun k =>
    let grp := matched.filter (fun e => key e == k)
    ⟨k.1, k.2, mongoAvg (grp.map fun _ => (none : Option ℚ)), grp.length⟩)
  insertSort (fun a b =>
    decide (a.year < b.year) || (a.year == b.year && decide (a.week ≤ b.week))) recs

/-! ## Insight model (src/server/models/Insight.js) -/

/-- One stored `insights` document. `priority` stays a `String` because
MongoDB stores and sorts it as a BSON string. `createdAt` is the
mongoose timestamp; `expiresAt` carries a TTL index
(`expireAfterSeconds: 0`), i.e. the document is physically removed by a
background reaper some time after `expiresAt` passes. Payload fields
not involved in validation, ranking or lifecycle (`data`,
`visualizations`, `tags`, `metadata`) are omitted. -/
structure Insight where
  id : String
  userId : String
  type : String
  category : String
  title : String
  description : String
  confidence : ℚ
  priority : String
  isRead : Bool
  isActionable : Bool
  actionTaken : Bool
  actionTakenAt : Option Nat
  expiresAt : Nat
  createdAt : Nat
  deriving DecidableEq, Repr

def insightTypeEnum : List String :=
  ["spending_pattern", "mood_correlation", "budget_insight", "goal_progress",
   "behavioral_trigger", "recommendation", "forecast"]

def insightCategoryEnum : List String :=
  ["financial", "emotional", "behavioral", "predictive", "actionable"]

def insightPriorityEnum : List String := ["low", "medium", "high", "urgent"]

/-- Mongoose validation run when an insight document is saved:
`userId`/`type`/`title`/`description`/`confidence`/`category` are
required (`required: true` rejects the empty string for String paths),
`title`/`description` are length-bounded, `confidence` has `min: 0,
max: 1`, and `type`/`priority`/`category` must lie in their `enum`
lists. `expiresAt` has no validator at all — it only carries the TTL
index — so its value, past or future, is never checked at ingestion. -/
def insightValid (i : Insight) : Bool :=
  (i.userId != "") &&
  decide (i.type ∈ insightTypeEnum) &&
  (i.title != "" && decide (i.title.length ≤ 200)) &&
  (i.description != "" && decide (i.description.length ≤ 1000)) &&
  decide (0 ≤ i.confidence) && decide (i.confidence ≤ 1) &&
  decide (i.priority ∈ insightPriorityEnum) &&
  decide (i.category ∈ insightCategoryEnum)

/-- Ingestion of a producer-submitted insight: mongoose validation, then
the document is appended to the collection. -/
def ingestInsight (store : List Insight) (i : Insight) :
    Except String (List Insight) :=
  if insightValid i then .ok (store ++ [i]) else .error "ValidationError"

/-- Route `GET /api/insights/:id`: `findOne` on id and user — the first
document matching both the id and the requesting user; no `expiresAt`
condition. -/
def getById (store : List Insight) (uid iid : String) : Option Insight :=
  store.find? (fun i => i.id == iid && i.userId == uid)

/-- Optional query filters of `GET /api/insights`. -/
structure InsightListFilters where
  typeF : Option String
  categoryF : Option String
  priorityF : Option String
  isReadF : Option Bool
  isActionableF : Option Bool
  deriving DecidableEq, Repr

def noInsightFilters : InsightListFilters := ⟨none, none, none, none, none⟩

/-- The `find` filter built by `GET /api/insights`: `userId` plus any
filters present in the query string. There is no `expiresAt` condition:
the route relies on the TTL index physically deleting expired
documents. -/
def insightMatchesList (uid : String) (f : InsightListFilters) (i : Insight) : Bool :=
  i.userId == uid &&
  (match f.typeF with | none => true | some t => i.type == t) &&
  (match f.categoryF with | none => true | some c => i.category == c) &&
  (match f.priorityF with | none => true | some p => i.priority == p) &&
  (match f.isReadF with | none => true | some r => i.isRead == r) &&
  (match f.isActionableF with | none => true | some a => i.isActionable == a)

/-- Route `GET /api/insights` with the default sort (`createdAt` descending):
filter, sort, then `skip((page-1)*limit)` and `limit(limit)` (MongoDB
applies skip before limit regardless of call order). -/
def listInsights (store : List Insight) (uid : String) (f : InsightListFilters)
    (page limit : Nat) : List Insight :=
  let sorted := insertSort (fun a b => decide (b.createdAt ≤ a.createdAt))
    (store.filter (insightMatchesList uid f))
  (sorted.drop ((page - 1) * limit)).take limit

/-- The comparator realised by
`sort({ priority: -1, confidence: -1, createdAt: -1 })`: each key
descending, `priority` compared as a BSON *string* (byte-wise
lexicographic), so the priority order is
urgent > medium > low > high — not the urgency order. -/
def actionableLe (a b : Insight) : Bool :=
  if a.priority = b.priority then
    if a.confidence = b.confidence then decide (b.createdAt ≤ a.createdAt)
    else decide (b.confidence < a.confidence)
  else strLtB b.priority a.priority

/-- Static `Insight.getActionableInsights(userId, limit)`:
`{userId, isActionable: true, actionTaken: false, expiresAt: {$gt: now}}`,
sorted by the comparator above, limited. -/
def getActionableInsights (store : List Insight) (uid : String)
    (limit now : Nat) : List Insight :=
  (insertSort actionableLe (store.filter (fun i =>
    i.userId == uid && i.isActionable && !i.actionTaken &&
    decide (now < i.expiresAt)))).take limit

/-- Route `PUT /api/insights/:id/read`: sets `isRead` to true on the
matched document. -/
def markReadOp (i : Insight) : Insight := { i with isRead := true }

/-- Route `PUT /api/insights/:id/action-taken`: sets `actionTaken` to
true and `actionTakenAt` to `new Date()` — the timestamp is taken
afresh at every call. -/
def markActionTakenOp (now : Nat) (i : Insight) : Insight :=
  { i with actionTaken := true, actionTakenAt := some now }

/-! ## GET /api/insights/summary (part_008 lines 109-156,
`Insight.getInsightsSummary`) -/

/-- The `$match` set of `getInsightsSummary`: the user's insights with
`createdAt ≥ startDate`. There is no `expiresAt` condition, so expired
but not yet purged insights are included. -/
def summaryMatched (store : List Insight) (uid : String) (startDate : Nat) :
    List Insight :=
  store.filter (fun i => i.userId == uid && decide (startDate ≤ i.createdAt))

/-- One `$group` output document of `getInsightsSummary`, keyed by
`(type, category)`. -/
structure InsightGroupRec where
  typeG : String
  categoryG : String
  count : Nat
  avgConfidence : ℚ
  highPriorityCount : Nat
  actionableCount : Nat
  deriving DecidableEq, Repr

/-- The `$group` key of `getInsightsSummary`: `(type, category)`. -/
def insightKey (i : Insight) : String × String := (i.type, i.category)

/-- Static `Insight.getInsightsSummary(userId, days)`: match the window, group
by `(type, category)` with count / `$avg` confidence / high-priority
and actionable counts, sort by count descending. -/
def getInsightsSummary (store : List Insight) (uid : String) (startDate : Nat) :
    List InsightGroupRec :=
  let matched := summaryMatched store uid startDate
  let keys := (matched.map insightKey).dedup
  let recs := keys.map (fun k =>
    let grp := matched.filter (fun i => decide (insightKey i = k))
    ⟨k.1, k.2, grp.length, meanQ (grp.map (·.confidence)),
     (grp.filter (fun i => i.priority == "high" || i.priority == "urgent")).length,
     (grp.filter (·.isActionable)).length⟩)
  insertSort (fun a b => decide (b.count ≤ a.count)) recs

/-- The summary object assembled by the route: sums of the per-group
counts, and `avgConfidence` = the mean **of the per-group averages**
(`reduce(acc + item.avgConfidence) / summary.length`), rounded via
`Math.round(x * 100) / 100`; `0` when there are no groups. -/
structure InsightsSummaryOut where
  totalInsights : Nat
  highPriorityCount : Nat
  actionableCount : Nat
  avgConfidence : ℚ
  deriving DecidableEq, Repr

def insightsSummaryRoute (store : List Insight) (uid : String)
    (startDate : Nat) : InsightsSummaryOut :=
  let summary := getInsightsSummary store uid startDate
  let avg := if 0 < summary.length
    then ((summary.map (·.avgConfidence)).sum) / (summary.length : ℚ)
    else 0
  ⟨(summary.map (·.count)).sum,
   (summary.map (·.highPriorityCount)).sum,
   (summary.map (·.actionableCount)).sum,
   round2 avg⟩

/-- Modelled from the spec for comparison (claim C7): `avgConfidence`
as the spec words it — the unweighted arithmetic mean of `confidence`
over all non-expired insights created within the window, each insight
weighted equally, rounded to two decimals, `0` when there are none. -/
def specAvgConfidence (store : List Insight) (uid : String)
    (startDate now : Nat) : ℚ :=
  let sel := store.filter (fun i => i.userId == uid &&
    decide (startDate ≤ i.createdAt) && decide (now < i.expiresAt))
  if sel.isEmpty then 0 else round2 (meanQ (sel.map (·.confidence)))

/-- Modelled from the spec for comparison (claims C3/C10): the base
score of a mood tag as the spec's closed lookup table words it
(happy=9, excited=8, content=7, calm=6, neutral=5, worried=4, sad=3,
anxious=2, stressed=2, angry=1). -/
def specBaseScore : String → ℚ
  | "happy" => 9
  | "excited" => 8
  | "content" => 7
  | "calm" => 6
  | "neutral" => 5
  | "worried" => 4
  | "sad" => 3
  | "anxious" => 2
  | "stressed" => 2
  | "angry" => 1
  | _ => 0

/-! ## Concrete documents used to evaluate the routes -/

/-- Four actionable, unexpired insights of one user realising the
spec's ordering test vector: priorities [low, urgent, high, urgent],
confidences [0.9, 0.5, 0.9, 0.9]. -/
def iLowC2 : Insight :=
  ⟨"a", "u2", "recommendation", "actionable", "t", "d", 9/10, "low",
   false, true, false, none, 1000, 10⟩
def iUrg05C2 : Insight :=
  ⟨"b", "u2", "recommendation", "actionable", "t", "d", 5/10, "urgent",
   false, true, false, none, 1000, 20⟩
def iHighC2 : Insight :=
  ⟨"c", "u2", "recommendation", "actionable", "t", "d", 9/10, "high",
   false, true, false, none, 1000, 30⟩
def iUrg09C2 : Insight :=
  ⟨"d", "u2", "recommendation", "actionable", "t", "d", 9/10, "urgent",
   false, true, false, none, 1000, 40⟩

def storeC2 : List Insight := [iLowC2, iUrg05C2, iHighC2, iUrg09C2]

/-- An insight whose `expiresAt` (50) is already in the past at
observation time 100, not yet physically purged by the TTL reaper. -/
def iExpC1 : Insight :=
  ⟨"e1", "u1", "forecast", "predictive", "t", "d", 1/2, "medium",
   false, true, false, none, 50, 10⟩

/-- A fully well-formed insight whose `expiresAt` (0) is not in the
future at any positive ingestion time. -/
def pastExpiryC6 : Insight :=
  ⟨"e6", "u6", "forecast", "predictive", "t", "d", 1/2, "medium",
   false, false, false, none, 0, 10⟩

/-- Three unexpired insights in one window: two share the
(type, category) group ("recommendation", "actionable") with
confidences 0.2 and 0.4; the third is alone in
("forecast", "predictive") with confidence 0.4. -/
def c7a : Insight :=
  ⟨"x1", "u7", "recommendation", "actionable", "t", "d", 2/10, "medium",
   false, false, false, none, 1000, 10⟩
def c7b : Insight :=
  ⟨"x2", "u7", "recommendation", "actionable", "t", "d", 4/10, "medium",
   false, false, false, none, 1000, 20⟩
def c7c : Insight :=
  ⟨"x3", "u7", "forecast", "predictive", "t", "d", 4/10, "medium",
   false, false, false, none, 1000, 30⟩

def storeC7 : List Insight := [c7a, c7b, c7c]

/-- A single mood event; any nonempty window makes the summary
aggregation evaluate its `$reduce`-over-a-string expression. -/
def evC8 : MoodEvent := ⟨"m8", "u8", "happy", 5, "general", "", [], none, 100⟩

/-- A mood event recorded at 2026-01-01T00:00:00Z (a Thursday):
ISO week 1 of 2026, but `$week` week 0. -/
def evC9 : MoodEvent :=
  ⟨"m9", "u9", "happy", 10, "general", "", [], none,
   epochDays 2026 1 1 * 86400000⟩

/-! ## Helper lemmas -/

theorem mem_insertOrd (le : α → α → Bool) (x a : α) (l : List α) :
    a ∈ insertOrd le x l ↔ a = x ∨ a ∈ l := by
  induction l with
  | nil => simp [insertOrd]
  | cons y ys ih =>
    simp only [insertOrd]
    by_cases h : le x y
    · simp only [h, if_true, List.mem_cons]
    · simp only [h, if_false, Bool.false_eq_true, List.mem_cons, ih]
      tauto

theorem mem_insertSort (le : α → α → Bool) (a : α) (l : List α) :
    a ∈ insertSort le l ↔ a ∈ l := by
  induction l with
  | nil => simp [insertSort]
  | cons x xs ih => simp [insertSort, mem_insertOrd, ih]

theorem length_insertOrd (le : α → α → Bool) (x : α) (l : List α) :
    (insertOrd le x l).length = l.length + 1 := by
  induction l with
  | nil => simp [insertOrd]
  | cons y ys ih =>
    by_cases h : le x y <;> simp [insertOrd, h, ih]

theorem length_insertSort (le : α → α → Bool) (l : List α) :
    (insertSort le l).length = l.length := by
  induction l with
  | nil => simp [insertSort]
  | cons x xs ih => simp [insertSort, length_insertOrd, ih]


theorem moodScoreOf_eq_base (m : String) (hm : m ∈ moodEnum) (i : Nat) :
    moodScoreOf m i = specBaseScore m * ((i : ℚ) / 10) := by
  simp only [moodEnum, List.mem_cons, List.not_mem_nil, or_false] at hm
  rcases hm with rfl|rfl|rfl|rfl|rfl|rfl|rfl|rfl|rfl|rfl <;>
    norm_num +decide [moodScoreOf, propLookup, moodScores, jsOrQ, specBaseScore]

theorem specBaseScore_bounds (m : String) (hm : m ∈ moodEnum) :
    1 ≤ specBaseScore m ∧ specBaseScore m ≤ 9 := by
  simp only [moodEnum, List.mem_cons, List.not_mem_nil, or_false] at hm
  rcases hm with rfl|rfl|rfl|rfl|rfl|rfl|rfl|rfl|rfl|rfl <;>
    norm_num [specBaseScore]

theorem moodScoreOf_bounds (m : String) (hm : m ∈ moodEnum) (i : Nat)
    (hi1 : 1 ≤ i) (hi2 : i ≤ 10) :
    0 < moodScoreOf m i ∧ moodScoreOf m i ≤ 9 := by
  obtain ⟨hb1, hb2⟩ := specBaseScore_bounds m hm
  rw [moodScoreOf_eq_base m hm i]
  have hi1' : (1 : ℚ) ≤ (i : ℚ) := by exact_mod_cast hi1
  have hi2' : ((i : ℚ)) ≤ 10 := by exact_mod_cast hi2
  constructor
  · nlinarith
  · nlinarith

/-! ## Claims C3 and C10 -/

/-- C3: for a mood event whose mood is in the closed ten-tag
enumeration and intensity in [1,10], the derived `moodScore` equals
`baseScore(mood) × (intensity / 10)` and lies in (0, 9]; after
`PUT /api/moods/:id` changes mood or intensity, the score returned is
recomputed from the updated fields (the virtual reads the current
document; no stored score field exists). -/
theorem moodScore_spec (e : MoodEvent) (p : MoodUpdatePayload)
    (hm : e.mood ∈ moodEnum) (hi1 : 1 ≤ e.intensity) (hi2 : e.intensity ≤ 10)
    (hm' : p.mood.getD e.mood ∈ moodEnum) :
    e.moodScore = specBaseScore e.mood * ((e.intensity : ℚ) / 10) ∧
    0 < e.moodScore ∧ e.moodScore ≤ 9 ∧
    (applyMoodUpdate e p).moodScore =
      specBaseScore (p.mood.getD e.mood) *
        ((p.intensity.getD e.intensity : ℚ) / 10) := by
  obtain ⟨hpos, hle⟩ := moodScoreOf_bounds e.mood hm e.intensity hi1 hi2
  refine ⟨moodScoreOf_eq_base e.mood hm e.intensity, hpos, hle, ?_⟩
  show moodScoreOf (p.mood.getD e.mood) (p.intensity.getD e.intensity) = _
  exact moodScoreOf_eq_base _ hm' _

/-- Witness for C3: a concrete event (happy, 10) updated to (sad, 4). -/
theorem moodScore_spec_witness :
    (⟨"m1", "u", "happy", 10, "general", "", [], none, 0⟩ : MoodEvent).moodScore
      = specBaseScore "happy" * ((10 : ℚ) / 10) ∧
    0 < (⟨"m1", "u", "happy", 10, "general", "", [], none, 0⟩ : MoodEvent).moodScore ∧
    (⟨"m1", "u", "happy", 10, "general", "", [], none, 0⟩ : MoodEvent).moodScore ≤ 9 ∧
    (applyMoodUpdate ⟨"m1", "u", "happy", 10, "general", "", [], none, 0⟩
        ⟨some "sad", some 4, none, none, none, none⟩).moodScore
      = specBaseScore "sad" * ((4 : ℚ) / 10) := by
  have h := moodScore_spec ⟨"m1", "u", "happy", 10, "general", "", [], none, 0⟩
    ⟨some "sad", some 4, none, none, none, none⟩
    (by decide) (by decide) (by decide) (by decide)
  exact ⟨h.1, h.2.1, h.2.2.1, h.2.2.2⟩

/-- C10: the `moodScore` virtual is total over arbitrary mood strings —
a mood outside the lookup table falls back to the neutral base 5 via
`|| 5`, giving `5 × (intensity / 10)`; for moods in the validated
enumeration the lookup always succeeds (the fallback is unreachable)
and the score lies in (0, 9] for intensity in [1, 10]. -/
theorem moodScore_total (m : String) (i : Nat) :
    (m ∉ moodScores.map Prod.fst → moodScoreOf m i = 5 * ((i : ℚ) / 10)) ∧
    (m ∈ moodEnum → (propLookup moodScores m).isSome = true) ∧
    (m ∈ moodEnum → 1 ≤ i → i ≤ 10 →
      0 < moodScoreOf m i ∧ moodScoreOf m i ≤ 9) := by
  refine ⟨?_, ?_, ?_⟩
  · intro h
    simp only [moodScores, List.map_cons, List.map_nil, List.mem_cons,
      List.not_mem_nil, or_false, not_or] at h
    obtain ⟨h1, h2, h3, h4, h5, h6, h7, h8, h9, h10⟩ := h
    norm_num +decide [moodScoreOf, propLookup, moodScores, jsOrQ,
      h1, h2, h3, h4, h5, h6, h7, h8, h9, h10]
  · intro hm
    simp only [moodEnum, List.mem_cons, List.not_mem_nil, or_false] at hm
    rcases hm with rfl|rfl|rfl|rfl|rfl|rfl|rfl|rfl|rfl|rfl <;> decide
  · exact fun hm hi1 hi2 => moodScoreOf_bounds m hm i hi1 hi2

/-- Witness for C10: an unknown mood tag takes the fallback branch; a
known tag hits the lookup table. -/
theorem moodScore_total_witness :
    moodScoreOf "bored" 7 = 5 * ((7 : ℚ) / 10) ∧
    (propLookup moodScores "sad").isSome = true := by
  exact ⟨(moodScore_total "bored" 7).1 (by decide),
    (moodScore_total "sad" 1).2.1 (by decide)⟩

/-! ## Claim C4 -/

/-- C4 (amended): `markRead` is idempotent; `markActionTaken` sets
`actionTaken` and is absorbed by a later call — repeating it leaves
`isRead`/`actionTaken` unchanged but re-stamps `actionTakenAt` with the
latest call's clock, so two calls agree with one call exactly on the
time of the last call. -/
theorem markOps_idempotent_amended (i : Insight) (t t1 t2 : Nat) :
    markReadOp (markReadOp i) = markReadOp i ∧
    markActionTakenOp t (markActionTakenOp t i) = markActionTakenOp t i ∧
    markActionTakenOp t2 (markActionTakenOp t1 i) = markActionTakenOp t2 i ∧
    (markActionTakenOp t i).actionTaken = true ∧
    (markActionTakenOp t i).actionTakenAt = some t := by
  refine ⟨rfl, rfl, rfl, rfl, rfl⟩

/-- Counterexample to C4 as stated: calling `markActionTaken` twice, at
clock 100 then 200, leaves a different observable state (the
`actionTakenAt` stamp) than calling it once at clock 100. -/
theorem markActionTaken_restamp_counterexample :
    decide (markActionTakenOp 200 (markActionTakenOp 100
        ⟨"i1", "u1", "forecast", "predictive", "t", "d", 1/2, "medium",
         false, true, false, none, 1000, 10⟩) =
      markActionTakenOp 100
        ⟨"i1", "u1", "forecast", "predictive", "t", "d", 1/2, "medium",
         false, true, false, none, 1000, 10⟩) = false ∧
    (markActionTakenOp 200 (markActionTakenOp 100
        ⟨"i1", "u1", "forecast", "predictive", "t", "d", 1/2, "medium",
         false, true, false, none, 1000, 10⟩)).actionTakenAt = some 200 ∧
    (markActionTakenOp 100
        ⟨"i1", "u1", "forecast", "predictive", "t", "d", 1/2, "medium",
         false, true, false, none, 1000, 10⟩).actionTakenAt = some 100 :=
  ⟨decide_eq_false (by simp [markActionTakenOp]), rfl, rfl⟩

/-! ## Claim C5 -/

/-- C5: `PUT /api/moods/:id` passes `req.body` to `$set` unvalidated as
a whole — a payload containing only `userId` passes every (optional)
validator, and the update then rewrites the stored event's `userId`,
contradicting the frame condition that only mood, intensity, context,
notes and triggers may change. -/
theorem moodUpdate_mass_assignment :
    validateMoodUpdate ⟨none, none, none, none, none, some "mallory"⟩ = true ∧
    (applyMoodUpdate ⟨"m1", "alice", "happy", 5, "general", "", [], none, 1000⟩
        ⟨none, none, none, none, none, some "mallory"⟩).userId = "mallory" ∧
    (⟨"m1", "alice", "happy", 5, "general", "", [], none, 1000⟩ : MoodEvent).userId
      = "alice" := by
  refine ⟨by decide, rfl, rfl⟩

/-! ## Claim C2 -/

/-- C2: evaluating `getActionableInsights` on the spec's test vector.
Because `sort({priority: -1, ...})` compares `priority` as a BSON
string, descending order is urgent > medium > low > high: both urgent
insights come first (0.9 before 0.5 on the confidence tie-break), but
the low-priority insight precedes the high-priority one — the claim
requires high before low. -/
theorem actionable_order_code_eval :
    getActionableInsights storeC2 "u2" 5 500 =
      [iUrg09C2, iUrg05C2, iLowC2, iHighC2] ∧
    strLtB "high" "low" = true := by
  constructor
  · norm_num +decide [getActionableInsights, storeC2, insertSort, insertOrd,
      actionableLe, strLtB, iLowC2, iUrg05C2, iHighC2, iUrg09C2]
  · decide

/-! ## Claim C8 -/

/-- C8: with any event in the window, the mood summary's `$group`
evaluates `$reduce` with the string `'$mood'` as input, which MongoDB
rejects, so the route answers 500 instead of a dominant mood; only the
empty window takes the explicit
`{totalLogs: 0, avgMoodScore: 0, dominantMood: 'neutral'}` default. -/
theorem mood_summary_code_eval :
    moodSummaryEndpoint [evC8] "u8" 0 =
      .error "The argument to $reduce must be an array, but was of type: string" ∧
    moodSummaryEndpoint [] "u8" 0 = .ok ⟨0, some 0, .str "neutral"⟩ := by
  exact ⟨rfl, rfl⟩

/-! ## Claim C9 -/

/-- C9: `weeklyScores` on a single event recorded 2026-01-01T00:00Z
(happy, intensity 10). The aggregation averages `'$moodScore'` — a
mongoose virtual absent from the stored documents — so `$avg` sees no
value and yields `null`, although the event's derived mood score is 9;
and it groups by `$week` (Sunday-based, 0-indexed), which places the
date in week 0 of 2026 while its ISO calendar week is week 1 of 2026. -/
theorem weekly_scores_code_eval :
    weeklyScores [evC9] "u9" (epochDays 2026 1 1 * 86400000) 7 =
      [⟨2026, 0, none, 1⟩] ∧
    isoWeekOfDay (epochDays 2026 1 1) = (2026, 1) ∧
    evC9.moodScore = 9 := by
  refine ⟨by decide, by decide, ?_⟩
  norm_num [MoodEvent.moodScore, evC9, moodScoreOf, propLookup, moodScores, jsOrQ]

/-! ## Claim C6 -/

/-- C6 (amended): for an otherwise well-formed submission, mongoose
validation at ingestion succeeds exactly when `confidence ∈ [0,1]` and
`type`/`category`/`priority` lie in their closed enumerations;
`expiresAt` is not consulted at all (expiry is delegated to the TTL
index), so changing it never affects validation. -/
theorem ingest_validation_iff (i : Insight)
    (huid : i.userId ≠ "")
    (ht1 : i.title ≠ "") (ht2 : i.title.length ≤ 200)
    (hd1 : i.description ≠ "") (hd2 : i.description.length ≤ 1000) :
    (insightValid i = true ↔
      (0 ≤ i.confidence ∧ i.confidence ≤ 1 ∧ i.type ∈ insightTypeEnum ∧
       i.category ∈ insightCategoryEnum ∧ i.priority ∈ insightPriorityEnum)) ∧
    (∀ t, insightValid { i with expiresAt := t } = insightValid i) := by
  constructor
  · simp only [insightValid, Bool.and_eq_true, bne_iff_ne, ne_eq,
      decide_eq_true_eq]
    constructor
    · rintro ⟨⟨⟨⟨⟨⟨⟨-, hty⟩, -⟩, -⟩, hc0⟩, hc1⟩, hp⟩, hcat⟩
      exact ⟨hc0, hc1, hty, hcat, hp⟩
    · rintro ⟨hc0, hc1, hty, hcat, hp⟩
      exact ⟨⟨⟨⟨⟨⟨⟨huid, hty⟩, ⟨ht1, ht2⟩⟩, ⟨hd1, hd2⟩⟩, hc0⟩, hc1⟩, hp⟩, hcat⟩
  · intro t
    rfl

/-- Witness for C6: a concrete well-formed insight. -/
theorem ingest_validation_iff_witness :
    (insightValid pastExpiryC6 = true ↔
      (0 ≤ pastExpiryC6.confidence ∧ pastExpiryC6.confidence ≤ 1 ∧
       pastExpiryC6.type ∈ insightTypeEnum ∧
       pastExpiryC6.category ∈ insightCategoryEnum ∧
       pastExpiryC6.priority ∈ insightPriorityEnum)) ∧
    (∀ t, insightValid { pastExpiryC6 with expiresAt := t } =
      insightValid pastExpiryC6) :=
  ingest_validation_iff pastExpiryC6 (by decide) (by decide) (by decide)
    (by decide) (by decide)

/-- Counterexample to C6 as stated: a fully valid insight whose
`expiresAt` (0) is not in the future at ingestion time 100 is accepted
by ingestion, not rejected with a `ValidationError`. -/
theorem ingest_pastExpiry_counterexample :
    ingestInsight [] pastExpiryC6 = .ok [pastExpiryC6] ∧
    pastExpiryC6.expiresAt ≤ 100 := by
  constructor
  · have hv : insightValid pastExpiryC6 = true := by
      norm_num +decide [insightValid, pastExpiryC6]
    simp [ingestInsight, hv]
  · decide

/-! ## More helper lemmas (permutations, grouping, find?) -/

theorem perm_insertOrd (le : α → α → Bool) (x : α) (l : List α) :
    (insertOrd le x l).Perm (x :: l) := by
  induction l with
  | nil => exact .refl _
  | cons y ys ih =>
    simp only [insertOrd]
    by_cases h : le x y
    · simp only [h, if_true]
      exact .refl _
    · simp only [h, if_false, Bool.false_eq_true]
      exact (ih.cons y).trans (List.Perm.swap x y ys)

theorem perm_insertSort (le : α → α → Bool) (l : List α) :
    (insertSort le l).Perm l := by
  induction l with
  | nil => exact .refl _
  | cons x xs ih =>
    exact (perm_insertOrd le x (insertSort le xs)).trans (ih.cons x)

theorem length_filter_eq_countP (p : α → Bool) (l : List α) :
    (l.filter p).length = l.countP p := by
  induction l with
  | nil => rfl
  | cons x xs ih =>
    by_cases h : p x <;> simp [List.filter_cons, List.countP_cons, h, ih]

theorem sum_group_lengths [DecidableEq κ] (l : List α) (key : α → κ) :
    (((l.map key).dedup).map
      (fun k => (l.filter (fun x => decide (key x = k))).length)).sum = l.length := by
  have h : ∀ k, (l.filter (fun x => decide (key x = k))).length
      = (l.map key).count k := by
    intro k
    rw [length_filter_eq_countP, List.count_eq_countP, List.countP_map]
    rfl
  simp only [h]
  rw [List.sum_map_count_dedup_eq_length, List.length_map]

theorem dedup_of_all_eq [DecidableEq α] (l : List α) (k : α)
    (hne : l ≠ []) (h : ∀ x ∈ l, x = k) : l.dedup = [k] := by
  induction l with
  | nil => exact absurd rfl hne
  | cons x xs ih =>
    have hx : x = k := h x (List.mem_cons_self x xs)
    by_cases hxs : xs = []
    · subst hxs hx
      simp
    · have hmem : x ∈ xs := by
        obtain ⟨y, ys, rfl⟩ := List.exists_cons_of_ne_nil hxs
        have hy : y = k := h y (by simp)
        simp [hx, hy]
      rw [List.dedup_cons_of_mem hmem]
      exact ih hxs (fun z hz => h z (List.mem_cons_of_mem x hz))

theorem find?_eq_some_of_unique (p : α → Bool) (l : List α) (a : α)
    (ha : a ∈ l) (hpa : p a = true)
    (huniq : ∀ b ∈ l, p b = true → b = a) : l.find? p = some a := by
  induction l with
  | nil => cases ha
  | cons x xs ih =>
    by_cases hx : p x = true
    · have hxa : x = a := huniq x (List.mem_cons_self x xs) hx
      rw [List.find?_cons_of_pos _ hx, hxa]
    · have ha' : a ∈ xs := by
        rcases List.mem_cons.mp ha with h | h
        · exact absurd (h ▸ hpa) hx
        · exact h
      rw [List.find?_cons_of_neg _ (by simpa using hx)]
      exact ih ha' (fun b hb hpb => huniq b (List.mem_cons_of_mem x hb) hpb)

/-! ## Claim C1 -/

/-- C1 (amended): after ingestion a valid insight is stored;
`getById` returns the (unique) insight with the given id for its owner
whether or not it has expired; an expired insight is absent from
`getActionableInsights` (its filter requires `expiresAt > now`); but an
expired insight still present in the collection IS returned by the list
operation — `GET /api/insights` has no `expiresAt` condition and relies
on the TTL index for physical purging. -/
theorem insight_expiry_lifecycle (store : List Insight) (i : Insight)
    (now lim limit : Nat) (hmem : i ∈ store)
    (huniq : ∀ j ∈ store, j.id = i.id → j.userId = i.userId → j = i) :
    (insightValid i = true → ingestInsight store i = .ok (store ++ [i])) ∧
    getById store i.userId i.id = some i ∧
    (i.expiresAt ≤ now → i ∉ getActionableInsights store i.userId lim now) ∧
    (store.length ≤ limit →
      i ∈ listInsights store i.userId noInsightFilters 1 limit) := by
  refine ⟨?_, ?_, ?_, ?_⟩
  · intro hv
    simp [ingestInsight, hv]
  · apply find?_eq_some_of_unique _ _ _ hmem
    · simp
    · intro b hb hpb
      simp only [Bool.and_eq_true, beq_iff_eq] at hpb
      exact huniq b hb hpb.1 hpb.2
  · intro hexp hmemA
    have h1 : i ∈ insertSort actionableLe (store.filter (fun j =>
        j.userId == i.userId && j.isActionable && !j.actionTaken &&
        decide (now < j.expiresAt))) := List.mem_of_mem_take hmemA
    rw [mem_insertSort] at h1
    have h2 := (List.mem_filter.mp h1).2
    simp only [Bool.and_eq_true, decide_eq_true_eq] at h2
    omega
  · intro hlen
    have hfil : i ∈ store.filter (insightMatchesList i.userId noInsightFilters) := by
      refine List.mem_filter.mpr ⟨hmem, ?_⟩
      simp [insightMatchesList, noInsightFilters]
    have hsorted : i ∈ insertSort (fun a b => decide (b.createdAt ≤ a.createdAt))
        (store.filter (insightMatchesList i.userId noInsightFilters)) :=
      (mem_insertSort _ _ _).mpr hfil
    have hlen2 : (insertSort (fun a b => decide (b.createdAt ≤ a.createdAt))
        (store.filter (insightMatchesList i.userId noInsightFilters))).length ≤ limit := by
      rw [length_insertSort]
      exact le_trans (List.length_filter_le _ _) hlen
    show i ∈ ((insertSort _ _).drop ((1 - 1) * limit)).take limit
    rw [Nat.sub_self, Nat.zero_mul, List.drop_zero, List.take_of_length_le hlen2]
    exact hsorted

/-- Witness for C1 on a one-element collection holding an expired
insight, observed at time 100. -/
theorem insight_expiry_lifecycle_witness :
    (insightValid iExpC1 = true →
      ingestInsight [iExpC1] iExpC1 = .ok ([iExpC1] ++ [iExpC1])) ∧
    getById [iExpC1] iExpC1.userId iExpC1.id = some iExpC1 ∧
    (iExpC1.expiresAt ≤ 100 →
      iExpC1 ∉ getActionableInsights [iExpC1] iExpC1.userId 5 100) ∧
    ([iExpC1].length ≤ 10 →
      iExpC1 ∈ listInsights [iExpC1] iExpC1.userId noInsightFilters 1 10) :=
  insight_expiry_lifecycle [iExpC1] iExpC1 100 5 10
    (List.mem_singleton.mpr rfl)
    (fun _ hj _ _ => List.mem_singleton.mp hj)

/-- Counterexample to C1 as stated: the expired insight `iExpC1`
(`expiresAt = 50 ≤ 100 = now`) is still returned by the list operation;
it is absent only from the actionable query. -/
theorem insight_expiry_list_counterexample :
    listInsights [iExpC1] "u1" noInsightFilters 1 10 = [iExpC1] ∧
    iExpC1.expiresAt ≤ 100 ∧
    getActionableInsights [iExpC1] "u1" 5 100 = [] :=
  ⟨rfl, by decide, rfl⟩

theorem getInsightsSummary_counts (store : List Insight) (uid : String)
    (startDate : Nat) :
    ((getInsightsSummary store uid startDate).map (·.count)).sum
      = (summaryMatched store uid startDate).length := by
  simp only [getInsightsSummary]
  refine Eq.trans (((perm_insertSort _ _).map _).sum_eq) ?_
  rw [List.map_map]
  show (List.map (fun k => (List.filter (fun x => decide (insightKey x = k))
      (summaryMatched store uid startDate)).length)
    ((summaryMatched store uid startDate).map insightKey).dedup).sum
      = (summaryMatched store uid startDate).length
  exact sum_group_lengths (summaryMatched store uid startDate) insightKey

/-! ## Claim C7 -/

/-- C7 (amended): the route's `totalInsights` counts every insight of
the user created within the window — expired ones included, since the
`$match` has no `expiresAt` condition; `avgConfidence` is `0` for an
empty window, and otherwise is the rounded mean of the per-
`(type, category)` group average confidences (`$avg` per group, then an
unweighted mean over the groups); in particular, when all insights in
the window share one `(type, category)` it coincides with the unweighted
mean over the insights. -/
theorem insights_summary_avg_amended (store : List Insight) (uid : String)
    (startDate : Nat) (k : String × String) :
    (insightsSummaryRoute store uid startDate).totalInsights
      = (summaryMatched store uid startDate).length ∧
    (summaryMatched store uid startDate = [] →
      (insightsSummaryRoute store uid startDate).avgConfidence = 0) ∧
    (summaryMatched store uid startDate ≠ [] →
      (∀ i ∈ summaryMatched store uid startDate, insightKey i = k) →
      (insightsSummaryRoute store uid startDate).avgConfidence
        = round2 (meanQ ((summaryMatched store uid startDate).map (·.confidence)))) := by
  refine ⟨?_, ?_, ?_⟩
  · simp only [insightsSummaryRoute]
    exact getInsightsSummary_counts store uid startDate
  · intro hmatched
    have hsum : getInsightsSummary store uid startDate = [] := by
      simp [getInsightsSummary, hmatched, insertSort]
    simp only [insightsSummaryRoute, hsum]
    norm_num [round2]
  · intro hne hall
    have hkeys : ((summaryMatched store uid startDate).map insightKey).dedup = [k] := by
      apply dedup_of_all_eq
      · intro h
        exact hne (List.map_eq_nil_iff.mp h)
      · intro x hx
        obtain ⟨i, hi, rfl⟩ := List.mem_map.mp hx
        exact hall i hi
    have hgrp : (summaryMatched store uid startDate).filter
        (fun i => decide (insightKey i = k)) = summaryMatched store uid startDate := by
      apply List.filter_eq_self.mpr
      intro a ha
      simpa using hall a ha
    have hsummary : getInsightsSummary store uid startDate =
        [⟨k.1, k.2, (summaryMatched store uid startDate).length,
          meanQ ((summaryMatched store uid startDate).map (·.confidence)),
          ((summaryMatched store uid startDate).filter (fun i =>
            i.priority == "high" || i.priority == "urgent")).length,
          ((summaryMatched store uid startDate).filter (·.isActionable)).length⟩] := by
      simp only [getInsightsSummary, hkeys, List.map_cons, List.map_nil, hgrp]
      simp [insertSort, insertOrd]
    simp only [insightsSummaryRoute, hsummary]
    norm_num

/-- Witness for C7: a one-insight window. -/
theorem insights_summary_avg_witness :
    (insightsSummaryRoute [c7c] "u7" 0).totalInsights
      = (summaryMatched [c7c] "u7" 0).length ∧
    summaryMatched [c7c] "u7" 0 ≠ [] ∧
    (insightsSummaryRoute [c7c] "u7" 0).avgConfidence
      = round2 (meanQ ((summaryMatched [c7c] "u7" 0).map (·.confidence))) := by
  have h := insights_summary_avg_amended [c7c] "u7" 0 ("forecast", "predictive")
  have hne : summaryMatched [c7c] "u7" 0 ≠ [] := by decide
  have hall : ∀ i ∈ summaryMatched [c7c] "u7" 0,
      insightKey i = ("forecast", "predictive") := by decide
  exact ⟨h.1, hne, h.2.2 hne hall⟩

/-- Counterexample to C7 as stated: over `storeC7` (confidences 0.2 and
0.4 in one (type, category) group, 0.4 alone in another, all unexpired
and in the window) the route returns the mean of the two group averages,
0.35, while the unweighted mean over the three insights rounds to 0.33. -/
theorem insights_summary_avg_counterexample :
    (insightsSummaryRoute storeC7 "u7" 0).avgConfidence = 35/100 ∧
    specAvgConfidence storeC7 "u7" 0 100 = 33/100 ∧
    (33 : ℚ)/100 < 35/100 := by
  refine ⟨?_, ?_, by norm_num⟩
  · norm_num +decide [insightsSummaryRoute, getInsightsSummary, summaryMatched,
      insightKey, storeC7, c7a, c7b, c7c, insertSort, insertOrd, meanQ, round2,
      List.dedup_cons_of_mem, List.dedup_cons_of_not_mem]
  · norm_num +decide [specAvgConfidence, storeC7, c7a, c7b, c7c, meanQ, round2]
